import Mathlib

/-
Verification of the oracle payload subsystem: nonce management
(nonce-management.service.ts), payload signing (payload-signing.service.ts),
payload lifecycle (oracle.service.ts) and on-chain submission
(submitter.service.ts).

Modelling conventions:
* Machine integers (`bigint` nonces, timestamps, attempt counters) are `Nat`.
* Timestamps are a single abstract clock value passed to each operation as
  `now`; record expiry is `now + 1800` (30 minutes, in seconds, matching the
  `defaultExpirationMinutes` of the source).
* `keccak256` is modelled as an injective constructor on the input string
  (the collision-freedom idealization of the real hash).
* Ethereum addresses are modelled abstractly as a numeric identity plus a
  case flag: `getAddress` yields the checksummed (mixed-case) rendering and
  `toLowerCase` normalizes the flag, so the case-insensitive comparisons of
  the source remain observable.
* EIP-712 signing (`ethers.Wallet.signTypedData` / `ethers.verifyTypedData`)
  is modelled symbolically: a well-formed signature records the private key
  and the exact (domain, value) pair that was signed; recovery over a
  different (domain, value) yields a different signer, and recovery of a
  malformed signature fails (the source catches the throw).  This is the
  standard existential-unforgeability idealization of ECDSA recovery.
-/

/-! ## JSON values and `JSON.stringify` -/

/-- A JSON value as it occurs in the `Record<string, any>` payload bodies of
the source (primitive values; the repository's bodies are flat maps such as
`value: 100`). -/
inductive Jval where
  | num (n : Int)
  | str (s : String)
  | bool (b : Bool)
  | null
deriving DecidableEq

/-- A payload body: the `Record<string, any>` open map, as the ordered list
of its key/value pairs (JavaScript objects preserve insertion order, which is
the order `JSON.stringify` serializes). -/
abbrev Body := List (String × Jval)

/-- The `JSON.stringify` escaping of a single character inside a string literal. -/
def escChar (c : Char) : String :=
  if c = '"' then "\\\"" else if c = '\\' then "\\\\" else Char.toString c

/-- The `JSON.stringify` escaping of a string body. -/
def escapeJson (s : String) : String :=
  String.join (s.data.map escChar)

/-- A JSON string literal: quote and escape. -/
def quoteJson (s : String) : String :=
  "\"" ++ escapeJson s ++ "\""

/-- Serialization of a primitive JSON value, as `JSON.stringify` prints it. -/
def Jval.ser : Jval → String
  | .num n => toString n
  | .str s => quoteJson s
  | .bool b => if b then "true" else "false"
  | .null => "null"

/-- The `JSON.stringify` of a body map: the members in the body's own key order,
wrapped in braces.  (No canonicalization / key sorting happens anywhere in
the source.) -/
def jsonStringify (b : Body) : String :=
  "\x7b" ++ String.intercalate "," (b.map (fun kv => quoteJson kv.1 ++ ":" ++ Jval.ser kv.2)) ++ "\x7d"

/-- A keccak256 digest.  The constructor keeps the pre-image: this is the
injective (collision-free) idealization of the hash function. -/
structure Keccak where
  digest : String
deriving DecidableEq

/-- Idealized `keccak256(toUtf8Bytes s)`. -/
def keccak256 (s : String) : Keccak :=
  Keccak.mk s

/-! ## Addresses -/

/-- An Ethereum address, abstracted to its identity (`key`, the private key
controlling it) and a case flag (`checksummed = true` for the mixed-case
checksummed rendering produced by `ethers.getAddress`). -/
structure Address where
  key : Nat
  checksummed : Bool
deriving DecidableEq

/-- Model of `address.toLowerCase()`: normalize the rendering. -/
def Address.toLowerCase (a : Address) : Address :=
  Address.mk a.key false

/-- Model of `ethers.getAddress`: validate and return the checksummed rendering. -/
def getAddress (a : Address) : Address :=
  Address.mk a.key true

/-- The address controlled by a private key (`new Wallet(privateKey).getAddress()`). -/
def addressOfKey (privateKey : Nat) : Address :=
  Address.mk privateKey true

/-! ## PayloadSigningService (payload-signing.service.ts) -/

namespace PayloadSigningService

/-- The fixed EIP-712 domain separator (name, version, chainId,
verifyingContract), with the source's default configuration values. -/
structure OracleDomain where
  name : String
  version : String
  chainId : Nat
  verifyingContract : String
deriving DecidableEq

/-- The domain this deployment signs under. -/
def oracleDomain : OracleDomain :=
  OracleDomain.mk "StellAIverse Oracle" "1" 1 "0x0000000000000000000000000000000000000000"

/-- The `OraclePayload` signing envelope: the five typed fields of the
EIP-712 value.  The source builds the JavaScript value with `nonce` and
`expiresAt` as decimal strings, but their declared EIP-712 types are
`uint256`, which is what is hashed and signed; they are embedded as the
naturals they denote.  `data` is the `JSON.stringify` of the body. -/
structure OraclePayloadV where
  payloadType : String
  payloadHash : Keccak
  nonce : Nat
  expiresAt : Nat
  data : String
deriving DecidableEq

/-- Model of `hashPayload`: keccak256 of the UTF-8 bytes of `JSON.stringify(payload)`. -/
def hashPayload (payload : Body) : Keccak :=
  keccak256 (jsonStringify payload)

/-- Model of `createStructuredData`: assemble the fixed domain and the envelope value. -/
def createStructuredData (payloadType : String) (payloadHash : Keccak)
    (nonce : Nat) (expiresAt : Nat) (data : Body) :
    OracleDomain × OraclePayloadV :=
  (oracleDomain,
   OraclePayloadV.mk payloadType payloadHash nonce expiresAt (jsonStringify data))

/-- A signature value.  A well-formed (`typed`) signature records the signing
key and the exact (domain, value) pair signed; `malformed` stands for any
byte string that is not a valid signature. -/
inductive Signature where
  | typed (key : Nat) (domain : OracleDomain) (value : OraclePayloadV)
  | malformed (raw : String)
deriving DecidableEq

/-- Model of `wallet.signTypedData(domain, types, value)`, idealized. -/
def signTypedData (privateKey : Nat) (domain : OracleDomain)
    (value : OraclePayloadV) : Signature :=
  Signature.typed privateKey domain value

/-- Model of `ethers.verifyTypedData(domain, types, value, signature)`, idealized:
recovering with the signed (domain, value) yields the signer's address;
recovering with any other (domain, value) yields a different address (the
unforgeability assumption); a malformed signature makes recovery throw,
modelled as `none`. -/
def verifyTypedData (domain : OracleDomain) (value : OraclePayloadV)
    (sig : Signature) : Option Address :=
  match sig with
  | Signature.malformed _ => none
  | Signature.typed k d v =>
    if d = domain ∧ v = value then some (addressOfKey k)
    else some (Address.mk (k + 1) false)

/-- Model of `signPayload`: build the structured data and sign it; returns the
signature and the checksummed signer address. -/
def signPayload (privateKey : Nat) (payloadType : String) (payloadHash : Keccak)
    (nonce : Nat) (expiresAt : Nat) (data : Body) : Signature × Address :=
  let dv := createStructuredData payloadType payloadHash nonce expiresAt data
  (signTypedData privateKey dv.1 dv.2, getAddress (addressOfKey privateKey))

/-- Model of `verifySignature`: rebuild the structured data, recover the signer, and
compare case-insensitively with the expected signer; any recovery failure is
caught and returns `false` (the function never throws). -/
def verifySignature (signature : Signature) (payloadType : String)
    (payloadHash : Keccak) (nonce : Nat) (expiresAt : Nat) (data : Body)
    (expectedSigner : Address) : Bool :=
  let dv := createStructuredData payloadType payloadHash nonce expiresAt data
  match verifyTypedData dv.1 dv.2 signature with
  | none => false
  | some recovered => decide (recovered.toLowerCase = expectedSigner.toLowerCase)

/-- Model of `computeStructuredDataHash`: the source builds the structured data and
then returns the *payload* hash unchanged — its own comment marks this as a
placeholder for a real EIP-712 hash computation. -/
def computeStructuredDataHash (payloadType : String) (payloadHash : Keccak)
    (nonce : Nat) (expiresAt : Nat) (data : Body) : Keccak :=
  let _dv := createStructuredData payloadType payloadHash nonce expiresAt data
  payloadHash

end PayloadSigningService

/-! ## NonceManagementService (nonce-management.service.ts) -/

/-- A row of the `submission_nonces` table: current nonce per (lowercased)
address, plus the last-used timestamp. -/
structure NonceEntry where
  address : Nat
  nonce : Nat
  lastUsedAt : Option Nat
deriving DecidableEq

/-- An entry of the in-memory nonce cache: cached nonce and fetch time. -/
structure CacheEntry where
  addr : Nat
  nonce : Nat
  lastFetch : Nat
deriving DecidableEq

/-- The state of the nonce subsystem: the database table and the in-process
read cache. -/
structure NonceState where
  db : List NonceEntry
  cache : List CacheEntry
deriving DecidableEq

/-- The empty nonce state. -/
def emptyNonceState : NonceState :=
  NonceState.mk [] []

namespace NonceManagementService

/-- Cache time-to-live (60 s; the source's clock for the cache is in
milliseconds, a unit note with no observable effect in this model). -/
def CACHE_TTL : Nat := 60000

/-- The key an address is stored under: `getAddress(address).toLowerCase()`. -/
def normKey (address : Address) : Nat :=
  ((getAddress address).toLowerCase).key

/-- Find the database row for a normalized address key. -/
def lookupDb (a : Nat) (db : List NonceEntry) : Option NonceEntry :=
  db.find? (fun e => e.address == a)

/-- The stored nonce for a key, `0` when the row does not exist. -/
def dbNonce (a : Nat) (s : NonceState) : Nat :=
  match lookupDb a s.db with
  | some e => e.nonce
  | none => 0

/-- Model of `Map.set` on the cache: replace any entry for the same key.  (The rows of
both the table and the cache are keyed uniquely, so the updated row is
modelled at the head.) -/
def setCache (a n now : Nat) (cache : List CacheEntry) : List CacheEntry :=
  CacheEntry.mk a n now :: cache.filter (fun c => c.addr != a)

/-- Save of the (possibly fresh) row holding nonce `n` for key `a`. -/
def upsertDb (a n now : Nat) (db : List NonceEntry) : List NonceEntry :=
  NonceEntry.mk a n (some now) :: db.filter (fun e => e.address != a)

/-- Model of `getCurrentNonce`: serve from the cache when fresh, else read the row
(creating it at `0` when absent) and refresh the cache. -/
def getCurrentNonce (now : Nat) (address : Address) (s : NonceState) :
    Nat × NonceState :=
  let a := normKey address
  match s.cache.find? (fun c => c.addr == a) with
  | some c =>
    if now - c.lastFetch < CACHE_TTL then (c.nonce, s)
    else
      match lookupDb a s.db with
      | some e => (e.nonce, NonceState.mk s.db (setCache a e.nonce now s.cache))
      | none =>
        (0, NonceState.mk (NonceEntry.mk a 0 none :: s.db) (setCache a 0 now s.cache))
  | none =>
    match lookupDb a s.db with
    | some e => (e.nonce, NonceState.mk s.db (setCache a e.nonce now s.cache))
    | none =>
      (0, NonceState.mk (NonceEntry.mk a 0 none :: s.db) (setCache a 0 now s.cache))

/-- Model of `getAndIncrementNonce`: inside one row-locked transaction, read the
current nonce (`0` for a fresh row), persist `current + 1`, and return the
pre-increment value; then invalidate the cache entry for the address. -/
def getAndIncrementNonce (now : Nat) (address : Address) (s : NonceState) :
    Nat × NonceState :=
  let a := normKey address
  let currentNonce := dbNonce a s
  let db' := upsertDb a (currentNonce + 1) now s.db
  (currentNonce, NonceState.mk db' (s.cache.filter (fun c => c.addr != a)))

/-- Repeated allocation: the list of nonces returned by `k` successive calls
to `getAndIncrementNonce` for the same address, with the final state. -/
def allocRun (now : Nat) (address : Address) (s : NonceState) :
    Nat → List Nat × NonceState
  | 0 => ([], s)
  | k + 1 =>
    let r := getAndIncrementNonce now address s
    let r' := allocRun now address r.2 k
    (r.1 :: r'.1, r'.2)

end NonceManagementService

/-! ## Entities and store state (signed-payload.entity.ts) -/

/-- Statuses (`PayloadStatus`) of signed-payload.entity.ts. -/
inductive PayloadStatus where
  | pending
  | submitted
  | confirmed
  | failed
deriving DecidableEq

/-- A row of the `signed_payloads` table.  The `signature` column is a
non-nullable varchar created as the empty string and overwritten by signing;
the empty-string placeholder is modelled as `none`. -/
structure PayloadRec where
  id : Nat
  payloadType : String
  signerAddress : Address
  nonce : Nat
  payload : Body
  payloadHash : Keccak
  structuredDataHash : Keccak
  signature : Option PayloadSigningService.Signature
  expiresAt : Nat
  status : PayloadStatus
  transactionHash : Option String
  blockNumber : Option Nat
  submissionAttempts : Nat
  errorMessage : Option String
  metadata : Option Body
  createdAt : Nat
  submittedAt : Option Nat
  confirmedAt : Option Nat
deriving DecidableEq

/-- The whole persistent state the oracle subsystem owns: the nonce
subsystem's state plus the payload table (with the id sequence). -/
structure OracleState where
  nonces : NonceState
  payloads : List PayloadRec
  nextId : Nat
deriving DecidableEq

/-- The empty store. -/
def initialState : OracleState :=
  OracleState.mk emptyNonceState [] 0

/-- Lookup (`findOne`) by primary key. -/
def findRec (payloadId : Nat) (s : OracleState) : Option PayloadRec :=
  s.payloads.find? (fun r => r.id == payloadId)

/-- Save (`repository.save`) of an existing row: replace the row with the same id. -/
def updateRec (p : PayloadRec) (l : List PayloadRec) : List PayloadRec :=
  l.map (fun r => if r.id == p.id then p else r)

/-- Persist an updated row into the store state. -/
def saveRec (p : PayloadRec) (s : OracleState) : OracleState :=
  OracleState.mk s.nonces (updateRec p s.payloads) s.nextId

/-- Errors surfaced synchronously by the services (both nest exception
classes collapse to their message here). -/
inductive SvcError where
  | notFound (msg : String)
  | badRequest (msg : String)
  | sendFailed (msg : String)
deriving DecidableEq

/-- Whether a service result is an error. -/
def isErr {α : Type} (r : Except SvcError α) : Bool :=
  match r with
  | Except.error _ => true
  | Except.ok _ => false

/-! ## SubmitterService (submitter.service.ts) -/

namespace SubmitterService

/-- The `SUBMITTER_MAX_RETRIES` bound with its default configuration value. -/
def maxRetries : Nat := 3

/-- The outcome of the external `sendTransaction` call, supplied as an
explicit parameter of the model (the ledger RPC is a collaborator). -/
inductive SendOutcome where
  | sent (txHash : String)
  | sendError (msg : String)
deriving DecidableEq

/-- The outcome the ledger reports for a monitored transaction: mined with a
success flag (`false` = ledger-reported revert), or an RPC/monitoring error
(`waitForTransaction` threw or the receipt was null). -/
inductive MonitorOutcome where
  | mined (success : Bool) (blockNumber : Nat)
  | rpcError (msg : String)
deriving DecidableEq

/-- Model of `submitPayload`: reject when missing, not `PENDING`, unsigned; sweep to
`FAILED` when expired; otherwise send.  A successful send persists
`SUBMITTED`, the transaction hash, `submittedAt` and the incremented attempt
counter; a failed send increments attempts, records the error, moves to
`FAILED` once `maxRetries` attempts are reached, and rethrows. -/
def submitPayload (now : Nat) (payloadId : Nat) (outcome : SendOutcome)
    (s : OracleState) : Except SvcError (String × PayloadRec) × OracleState :=
  match findRec payloadId s with
  | none => (Except.error (SvcError.badRequest "Payload not found"), s)
  | some p =>
    if p.status ≠ PayloadStatus.pending then
      (Except.error (SvcError.badRequest "Payload is not in PENDING status"), s)
    else if p.signature = none then
      (Except.error (SvcError.badRequest "Payload is not signed"), s)
    else if p.expiresAt < now then
      let p' := { p with status := PayloadStatus.failed,
                         errorMessage := some "Payload expired before submission" }
      (Except.error (SvcError.badRequest "Payload has expired"), saveRec p' s)
    else
      match outcome with
      | SendOutcome.sent txHash =>
        let p' := { p with transactionHash := some txHash,
                           status := PayloadStatus.submitted,
                           submittedAt := some now,
                           submissionAttempts := p.submissionAttempts + 1 }
        (Except.ok (txHash, p'), saveRec p' s)
      | SendOutcome.sendError msg =>
        let attempts := p.submissionAttempts + 1
        let p' := { p with submissionAttempts := attempts,
                           errorMessage := some msg,
                           status := if maxRetries ≤ attempts
                                     then PayloadStatus.failed else p.status }
        (Except.error (SvcError.sendFailed msg), saveRec p' s)

/-- Model of `monitorTransaction`: on a mined receipt with success status, persist
`CONFIRMED`, the block number, `confirmedAt`, and clear the error; on a
ledger-reported revert persist `FAILED`; the catch-all for monitoring
errors (RPC failure, null receipt) also persists `FAILED` with a
"Transaction monitoring failed" message.  The current status of the row is
never checked. -/
def monitorTransaction (now : Nat) (payloadId : Nat) (outcome : MonitorOutcome)
    (s : OracleState) : OracleState :=
  match outcome with
  | MonitorOutcome.mined success blockNumber =>
    match findRec payloadId s with
    | none => s
    | some p =>
      if success then
        saveRec { p with status := PayloadStatus.confirmed,
                         blockNumber := some blockNumber,
                         confirmedAt := some now,
                         errorMessage := none } s
      else
        saveRec { p with status := PayloadStatus.failed,
                         errorMessage := some "Transaction reverted on-chain" } s
  | MonitorOutcome.rpcError msg =>
    match findRec payloadId s with
    | none => s
    | some p =>
      saveRec { p with status := PayloadStatus.failed,
                       errorMessage := some ("Transaction monitoring failed: " ++ msg) } s

/-- Model of `retrySubmission`: reject once `maxRetries` attempts are reached
(without looking at the status); otherwise reset the row to `PENDING`,
clear the error, and re-run `submitPayload`. -/
def retrySubmission (now : Nat) (payloadId : Nat) (outcome : SendOutcome)
    (s : OracleState) : Except SvcError (String × PayloadRec) × OracleState :=
  match findRec payloadId s with
  | none => (Except.error (SvcError.badRequest "Payload not found"), s)
  | some p =>
    if maxRetries ≤ p.submissionAttempts then
      (Except.error (SvcError.badRequest "Payload has exceeded maximum retry attempts"), s)
    else
      let s' := saveRec { p with status := PayloadStatus.pending,
                                 errorMessage := none } s
      submitPayload now payloadId outcome s'

end SubmitterService

/-! ## OracleService (oracle.service.ts) -/

namespace OracleService

/-- The `defaultExpirationMinutes` expiry (30 minutes), in seconds. -/
def defaultExpirationSeconds : Nat := 1800

/-- Model of `createPayload`: allocate the next nonce for the signer, hash the body,
fix the expiry, compute the structured-data hash, and persist a fresh
`PENDING` row with an empty signature.  The nonce allocation commits in its
own transaction *before* the save; the save fails on the unique
`payloadHash` constraint when a row with the same content hash exists, and
that failure does not roll the nonce back. -/
def createPayload (now : Nat) (signerAddress : Address) (payloadType : String)
    (body : Body) (metadata : Option Body) (s : OracleState) :
    Except SvcError PayloadRec × OracleState :=
  let nr := NonceManagementService.getAndIncrementNonce now signerAddress s.nonces
  let payloadHash := PayloadSigningService.hashPayload body
  let expiresAt := now + defaultExpirationSeconds
  let structuredDataHash :=
    PayloadSigningService.computeStructuredDataHash payloadType payloadHash nr.1 expiresAt body
  let p : PayloadRec :=
    { id := s.nextId
      payloadType := payloadType
      signerAddress := signerAddress.toLowerCase
      nonce := nr.1
      payload := body
      payloadHash := payloadHash
      structuredDataHash := structuredDataHash
      signature := none
      expiresAt := expiresAt
      status := PayloadStatus.pending
      transactionHash := none
      blockNumber := none
      submissionAttempts := 0
      errorMessage := none
      metadata := metadata
      createdAt := now
      submittedAt := none
      confirmedAt := none }
  if s.payloads.any (fun r => r.payloadHash == payloadHash) then
    (Except.error (SvcError.badRequest "duplicate payloadHash"),
     OracleState.mk nr.2 s.payloads s.nextId)
  else
    (Except.ok p, OracleState.mk nr.2 (s.payloads ++ [p]) (s.nextId + 1))

/-- Model of `signPayload`: reject when missing, already signed, or expired; sign the
persisted envelope fields with the provided key; reject when the recovered
signer does not match the row's `signerAddress`; otherwise persist the
signature. -/
def signPayload (now : Nat) (payloadId : Nat) (privateKey : Nat)
    (s : OracleState) : Except SvcError PayloadRec × OracleState :=
  match findRec payloadId s with
  | none => (Except.error (SvcError.notFound "Payload not found"), s)
  | some p =>
    if p.signature.isSome then
      (Except.error (SvcError.badRequest "Payload is already signed"), s)
    else if p.expiresAt < now then
      (Except.error (SvcError.badRequest "Payload has expired"), s)
    else
      let sr := PayloadSigningService.signPayload privateKey p.payloadType
                  p.payloadHash p.nonce p.expiresAt p.payload
      if sr.2.toLowerCase ≠ p.signerAddress.toLowerCase then
        (Except.error (SvcError.badRequest "Signer address does not match expected address"), s)
      else
        let p' := { p with signature := some sr.1 }
        (Except.ok p', saveRec p' s)

/-- Model of `getPendingPayloads`: query rows with `status = PENDING` and
`signature IN (NULL, '')`, ordered by creation time ascending, up to
`limit`; then post-filter to unexpired rows with a truthy signature. -/
def getPendingPayloads (now : Nat) (limit : Nat) (s : OracleState) :
    List PayloadRec :=
  let queried := s.payloads.filter
    (fun p => decide (p.status = PayloadStatus.pending) && decide (p.signature = none))
  let ordered := queried.mergeSort (fun a b => a.createdAt ≤ b.createdAt)
  let taken := ordered.take limit
  taken.filter (fun p => decide (now < p.expiresAt) && decide (p.signature ≠ none))

/-- Model of `cleanupExpiredPayloads`: sweep every expired `PENDING` row to `FAILED`
with the "Payload expired" message. -/
def cleanupExpiredPayloads (now : Nat) (s : OracleState) : OracleState :=
  OracleState.mk s.nonces
    (s.payloads.map (fun p =>
      if decide (p.status = PayloadStatus.pending) && decide (p.expiresAt < now) then
        { p with status := PayloadStatus.failed,
                 errorMessage := some "Payload expired" }
      else p))
    s.nextId

end OracleService

/-! ## Reachable store states -/

/-- The states reachable from the empty store by the lifecycle operations.
A monitoring step only runs for a payload id that a submission handed to the
background monitor, i.e. one whose row carries a transaction hash. -/
inductive Reach : OracleState → Prop where
  | init : Reach initialState
  | create {s now a ty b md} : Reach s →
      Reach (OracleService.createPayload now a ty b md s).2
  | sign {s now id k} : Reach s →
      Reach (OracleService.signPayload now id k s).2
  | submit {s now id out} : Reach s →
      Reach (SubmitterService.submitPayload now id out s).2
  | monitor {s now id out} : Reach s →
      (∀ p ∈ s.payloads, p.id = id → p.transactionHash ≠ none) →
      Reach (SubmitterService.monitorTransaction now id out s)
  | retry {s now id out} : Reach s →
      Reach (SubmitterService.retrySubmission now id out s).2
  | cleanup {s now} : Reach s →
      Reach (OracleService.cleanupExpiredPayloads now s)

/-! ## Concrete fixtures used to instantiate the theorems -/

/-- A concrete signer address (lowercase rendering of the address of private
key 5). -/
def addrEx : Address := Address.mk 5 false

/-- The body written with keys in the order a, b. -/
def bodyAB : Body := [("a", Jval.num 1), ("b", Jval.num 2)]

/-- The same key/value pairs written in the order b, a. -/
def bodyBA : Body := [("b", Jval.num 2), ("a", Jval.num 1)]

/-- Store after `createPayload` at time 0 for `addrEx` with body `bodyAB`. -/
def stCreated : OracleState :=
  (OracleService.createPayload 0 addrEx "price_feed" bodyAB none initialState).2

/-- Store after additionally signing payload 0 with private key 5. -/
def stSigned : OracleState :=
  (OracleService.signPayload 0 0 5 stCreated).2

/-- Store after additionally submitting payload 0 (send succeeded). -/
def stSubmitted : OracleState :=
  (SubmitterService.submitPayload 0 0 (SubmitterService.SendOutcome.sent "0xt1") stSigned).2

/-- Store after the monitor reported payload 0 mined successfully. -/
def stConfirmed : OracleState :=
  SubmitterService.monitorTransaction 0 0 (SubmitterService.MonitorOutcome.mined true 7) stSubmitted

/-- A signed, unexpired, pending record (used to instantiate the signing
rejection and monitoring theorems directly). -/
def recSigned : PayloadRec :=
  { id := 0
    payloadType := "price_feed"
    signerAddress := Address.mk 5 false
    nonce := 0
    payload := bodyAB
    payloadHash := keccak256 (jsonStringify bodyAB)
    structuredDataHash := keccak256 (jsonStringify bodyAB)
    signature := some (PayloadSigningService.Signature.malformed "0xsig")
    expiresAt := 1800
    status := PayloadStatus.pending
    transactionHash := none
    blockNumber := none
    submissionAttempts := 0
    errorMessage := none
    metadata := none
    createdAt := 0
    submittedAt := none
    confirmedAt := none }

/-- A store holding just `recSigned`. -/
def sSigned : OracleState :=
  OracleState.mk emptyNonceState [recSigned] 1

/-- A submitted record carrying its transaction reference. -/
def recSubmitted : PayloadRec :=
  { recSigned with status := PayloadStatus.submitted,
                   transactionHash := some "0xt1",
                   submittedAt := some 0,
                   submissionAttempts := 1 }

/-- A store holding just `recSubmitted`. -/
def sSubmitted : OracleState :=
  OracleState.mk emptyNonceState [recSubmitted] 1

/-- A confirmed record with one submission attempt. -/
def recConfirmed : PayloadRec :=
  { recSubmitted with status := PayloadStatus.confirmed,
                      blockNumber := some 7,
                      confirmedAt := some 0 }

/-- A store holding just `recConfirmed`. -/
def sConfirmed : OracleState :=
  OracleState.mk emptyNonceState [recConfirmed] 1

/-- A failed record whose attempts already reached `maxRetries`. -/
def recMaxed : PayloadRec :=
  { recSubmitted with status := PayloadStatus.failed,
                      submissionAttempts := 3,
                      errorMessage := some "boom" }

/-- A store holding just `recMaxed`. -/
def sMaxed : OracleState :=
  OracleState.mk emptyNonceState [recMaxed] 1

/-- The signature/status invariant the store maintains: a row that is
`SUBMITTED` or `CONFIRMED` carries a signature, and a row that carries a
transaction reference carries a signature. -/
def SigInv (s : OracleState) : Prop :=
  ∀ p ∈ s.payloads,
    ((p.status = PayloadStatus.submitted ∨ p.status = PayloadStatus.confirmed) →
      p.signature ≠ none) ∧
    (p.transactionHash ≠ none → p.signature ≠ none)

/-! ## Helper lemmas -/

namespace NonceManagementService

theorem getAndIncrementNonce_fst (now : Nat) (address : Address) (s : NonceState) :
    (getAndIncrementNonce now address s).1 = dbNonce (normKey address) s := rfl

theorem dbNonce_getAndIncrementNonce (now : Nat) (address : Address) (s : NonceState) :
    dbNonce (normKey address) (getAndIncrementNonce now address s).2 =
      dbNonce (normKey address) s + 1 := by
  simp [getAndIncrementNonce, dbNonce, lookupDb, upsertDb, List.find?]

theorem allocRun_fst (now : Nat) (address : Address) (s : NonceState) (k : Nat) :
    (allocRun now address s k).1 = List.range' (dbNonce (normKey address) s) k := by
  induction k generalizing s with
  | zero => rfl
  | succ k ih =>
    simp only [allocRun]
    rw [ih ((getAndIncrementNonce now address s).2), dbNonce_getAndIncrementNonce,
      List.range'_succ, getAndIncrementNonce_fst]

end NonceManagementService

/-! ## Store helper lemmas -/

theorem mem_updateRec {q p' : PayloadRec} {l : List PayloadRec}
    (h : q ∈ updateRec p' l) : q = p' ∨ (q ∈ l ∧ (q.id == p'.id) = false) := by
  obtain ⟨r, hr, he⟩ := List.mem_map.mp h
  by_cases hid : (r.id == p'.id) = true
  · left
    rw [← he, if_pos hid]
  · right
    rw [← he, if_neg hid]
    exact ⟨hr, Bool.eq_false_iff.mpr hid⟩

theorem find?_updateRec {l : List PayloadRec} {id : Nat} {p p' : PayloadRec}
    (h : l.find? (fun r => r.id == id) = some p) (hid : p'.id = p.id) :
    (updateRec p' l).find? (fun r => r.id == id) = some p' := by
  have hpid : (p.id == id) = true := by
    have hp := List.find?_some h
    simpa using hp
  induction l with
  | nil => simp [List.find?] at h
  | cons r l ih =>
    rw [List.find?] at h
    by_cases hr : (r.id == id) = true
    · rw [hr] at h
      have hrp : r = p := by simpa using h
      have hmatch : (r.id == p'.id) = true := by
        rw [hrp, hid]
        exact beq_self_eq_true p.id
      simp only [updateRec, List.map, if_pos hmatch, List.find?]
      have hp'id : (p'.id == id) = true := by
        rw [hid]
        exact hpid
      rw [hp'id]
    · rw [Bool.eq_false_iff.mpr hr] at h
      have h1 : r.id ≠ id := fun hcontra => hr (by simp [hcontra])
      have h2 : p.id = id := by simpa using hpid
      have hrne : ¬ (r.id == p'.id) = true := by
        simp only [beq_iff_eq, hid, h2]
        exact h1
      simp only [updateRec, List.map, if_neg hrne, List.find?,
        Bool.eq_false_iff.mpr hr]
      exact ih h

/-- Reading `findRec` after saving a row with the found row's id yields the saved row. -/
theorem findRec_saveRec {s : OracleState} {p p' : PayloadRec} {id : Nat}
    (h : findRec id s = some p) (hid : p'.id = p.id) :
    findRec id (saveRec p' s) = some p' :=
  find?_updateRec h hid

/-! ## Claim theorems -/

open NonceManagementService in
/-- Claim C1: for every signer, `getCurrentNonce` returns 0 if the signer has
never allocated, and every call to `getAndIncrementNonce` returns the
signer's current nonce (the pre-increment value) and leaves the stored nonce
equal to that value plus one; hence successive calls for one signer return
the distinct, gap-free increasing values 0, 1, 2, ... -/
theorem c1_nonce_allocation (now : Nat) (address : Address) (s : NonceState)
    (k : Nat)
    (hdb : lookupDb (normKey address) s.db = none)
    (hcache : s.cache.find? (fun c => c.addr == normKey address) = none) :
    (getCurrentNonce now address s).1 = 0 ∧
    (getAndIncrementNonce now address s).1 = dbNonce (normKey address) s ∧
    dbNonce (normKey address) (getAndIncrementNonce now address s).2 =
      dbNonce (normKey address) s + 1 ∧
    (allocRun now address s k).1 =
      List.range' (dbNonce (normKey address) s) k ∧
    (allocRun now address s k).1 = List.range k := by
  refine ⟨?_, rfl, dbNonce_getAndIncrementNonce now address s, allocRun_fst now address s k, ?_⟩
  · simp [getCurrentNonce, hcache, hdb]
  · rw [allocRun_fst]
    have h0 : dbNonce (normKey address) s = 0 := by
      simp [dbNonce, hdb]
    rw [h0, ← List.range_eq_range']

/-- Concrete instantiation of `c1_nonce_allocation`: on the empty store the
first read is 0 and three allocations return 0, 1, 2. -/
theorem c1_nonce_allocation_witness :
    (NonceManagementService.getCurrentNonce 0 addrEx emptyNonceState).1 = 0 ∧
    (NonceManagementService.allocRun 0 addrEx emptyNonceState 3).1 = List.range 3 := by
  have h := c1_nonce_allocation 0 addrEx emptyNonceState 3 rfl rfl
  exact ⟨h.1, h.2.2.2.2⟩

/-- Claim C2, counterexample: `hashPayload` hashes the body's own-order JSON
serialization, so the two key orderings of the pairs a=1, b=2 hash
differently, refuting key-ordering invariance. -/
theorem c2_hash_counterexample :
    PayloadSigningService.hashPayload bodyAB ≠ PayloadSigningService.hashPayload bodyBA := by
  decide

/-- Claim C2 (amended): `hashPayload` is determined by, and injective in
(under the collision-free idealization of keccak256), the `JSON.stringify`
serialization of the body in the body's own key order: two bodies hash
identically exactly when they serialize identically, so any value change
that changes the serialization changes the hash, and reordering keys changes
the hash. -/
theorem c2_hash_eq_iff_serialization_eq (b1 b2 : Body) :
    PayloadSigningService.hashPayload b1 = PayloadSigningService.hashPayload b2 ↔
      jsonStringify b1 = jsonStringify b2 := by
  simp [PayloadSigningService.hashPayload, keccak256, Keccak.mk.injEq]

/-- Claim C7: the persisted structured hash is *not* a typed-data hash of
the envelope: `computeStructuredDataHash` returns the payload hash unchanged
(its own comment calls it a placeholder), so it coincides with `hashPayload`
as a function and two envelopes differing only in nonce (or expiry) get the
same structured hash. -/
theorem c7_structured_hash_placeholder (pt : String) (ph : Keccak) (n e : Nat)
    (d : Body) :
    PayloadSigningService.computeStructuredDataHash pt ph n e d = ph ∧
    PayloadSigningService.computeStructuredDataHash pt ph (n + 1) e d =
      PayloadSigningService.computeStructuredDataHash pt ph n e d ∧
    PayloadSigningService.computeStructuredDataHash pt ph n (e + 1) d =
      PayloadSigningService.computeStructuredDataHash pt ph n e d :=
  ⟨rfl, rfl, rfl⟩

/-- Claim C4 (the latent defect): `getPendingPayloads` never returns a
record at all.  The query keeps only rows whose signature is null or empty,
and the post-filter then demands a truthy signature, so the two conditions
are contradictory and the result is `[]` in every store state — in
particular a ready record (pending, signed, unexpired) is never listed. -/
theorem c4_getPendingPayloads_empty (now limit : Nat) (s : OracleState) :
    OracleService.getPendingPayloads now limit s = [] := by
  simp only [OracleService.getPendingPayloads]
  apply List.filter_eq_nil_iff.mpr
  intro p hp
  have hsort : p ∈ s.payloads.filter
      (fun p => decide (p.status = PayloadStatus.pending) && decide (p.signature = none)) :=
    (List.mergeSort_perm _ _).mem_iff.mp (List.mem_of_mem_take hp)
  have hsig : p.signature = none := by
    have hq := (List.mem_filter.mp hsort).2
    have hq2 := (Bool.and_eq_true _ _).mp hq
    exact of_decide_eq_true hq2.2
  simp [hsig]

open NonceManagementService PayloadSigningService in
/-- Claim C10: `createPayload` consumes the signer's nonce even when the
subsequent save fails on the unique `payloadHash` constraint — the store is
left with the payload table unchanged, no record created, and the signer's
stored nonce advanced by one, so a failed `createPayload` is not atomic with
respect to sequence state. -/
theorem c10_nonce_consumed_on_failed_save (now : Nat) (a : Address)
    (ty : String) (body : Body) (md : Option Body) (s : OracleState)
    (hdup : ∃ r ∈ s.payloads, r.payloadHash = hashPayload body) :
    isErr (OracleService.createPayload now a ty body md s).1 = true ∧
    (OracleService.createPayload now a ty body md s).2.payloads = s.payloads ∧
    (OracleService.createPayload now a ty body md s).2.nextId = s.nextId ∧
    dbNonce (normKey a) (OracleService.createPayload now a ty body md s).2.nonces =
      dbNonce (normKey a) s.nonces + 1 := by
  have hany : (s.payloads.any (fun r => r.payloadHash == hashPayload body)) = true := by
    rw [List.any_eq_true]
    obtain ⟨r, hr, he⟩ := hdup
    exact ⟨r, hr, by simp [he]⟩
  simp only [OracleService.createPayload, hany, if_pos]
  exact ⟨rfl, trivial, trivial, dbNonce_getAndIncrementNonce now a s.nonces⟩

/-- Concrete instantiation of `c10_nonce_consumed_on_failed_save`: creating
the same body twice — the second call fails, leaves the single existing
record in place, and still advances the signer's nonce from 1 to 2. -/
theorem c10_nonce_consumed_witness :
    isErr (OracleService.createPayload 0 addrEx "price_feed" bodyAB none stCreated).1 = true ∧
    (OracleService.createPayload 0 addrEx "price_feed" bodyAB none stCreated).2.payloads =
      stCreated.payloads ∧
    NonceManagementService.dbNonce (NonceManagementService.normKey addrEx)
      (OracleService.createPayload 0 addrEx "price_feed" bodyAB none stCreated).2.nonces =
      NonceManagementService.dbNonce (NonceManagementService.normKey addrEx)
        stCreated.nonces + 1 := by
  have h := c10_nonce_consumed_on_failed_save 0 addrEx "price_feed" bodyAB none stCreated
    (by decide)
  exact ⟨h.1, h.2.1, h.2.2.2⟩

open PayloadSigningService in
/-- Claim C3: a signature produced by `signPayload` verifies against the
signer's address; flipping any single field of the signed envelope
(payloadType, payloadHash, nonce, expiresAt, or the serialized data string)
before verification makes `verifySignature` return false; and
`verifySignature` returns false — it never throws — on a malformed
signature. -/
theorem c3_sign_verify_roundtrip (key : Nat) (pt pt' : String)
    (ph ph' : Keccak) (n n' e e' : Nat) (d d' : Body) (raw : String)
    (expected : Address) :
    verifySignature (signPayload key pt ph n e d).1 pt ph n e d
      (addressOfKey key) = true ∧
    (pt' ≠ pt → verifySignature (signPayload key pt ph n e d).1 pt' ph n e d
      (addressOfKey key) = false) ∧
    (ph' ≠ ph → verifySignature (signPayload key pt ph n e d).1 pt ph' n e d
      (addressOfKey key) = false) ∧
    (n' ≠ n → verifySignature (signPayload key pt ph n e d).1 pt ph n' e d
      (addressOfKey key) = false) ∧
    (e' ≠ e → verifySignature (signPayload key pt ph n e d).1 pt ph n e' d
      (addressOfKey key) = false) ∧
    (jsonStringify d' ≠ jsonStringify d →
      verifySignature (signPayload key pt ph n e d).1 pt ph n e d'
        (addressOfKey key) = false) ∧
    verifySignature (Signature.malformed raw) pt' ph' n' e' d' expected = false := by
  refine ⟨?_, ?_, ?_, ?_, ?_, ?_, ?_⟩
  · simp [verifySignature, signPayload, signTypedData, verifyTypedData,
      createStructuredData]
  · intro h
    have h2 := Ne.symm h
    simp [verifySignature, signPayload, signTypedData, verifyTypedData,
      createStructuredData, OraclePayloadV.mk.injEq, h2, Address.toLowerCase,
      addressOfKey, Address.mk.injEq, Nat.succ_ne_self]
  · intro h
    have h2 := Ne.symm h
    simp [verifySignature, signPayload, signTypedData, verifyTypedData,
      createStructuredData, OraclePayloadV.mk.injEq, h2, Address.toLowerCase,
      addressOfKey, Address.mk.injEq, Nat.succ_ne_self]
  · intro h
    have h2 := Ne.symm h
    simp [verifySignature, signPayload, signTypedData, verifyTypedData,
      createStructuredData, OraclePayloadV.mk.injEq, h2, Address.toLowerCase,
      addressOfKey, Address.mk.injEq, Nat.succ_ne_self]
  · intro h
    have h2 := Ne.symm h
    simp [verifySignature, signPayload, signTypedData, verifyTypedData,
      createStructuredData, OraclePayloadV.mk.injEq, h2, Address.toLowerCase,
      addressOfKey, Address.mk.injEq, Nat.succ_ne_self]
  · intro h
    have h2 := Ne.symm h
    simp [verifySignature, signPayload, signTypedData, verifyTypedData,
      createStructuredData, OraclePayloadV.mk.injEq, h2, Address.toLowerCase,
      addressOfKey, Address.mk.injEq, Nat.succ_ne_self]
  · simp [verifySignature, verifyTypedData]

open PayloadSigningService in
/-- Concrete instantiation of `c3_sign_verify_roundtrip` with key 5 and an
envelope of type "a": the genuine signature verifies, and each single-field
flip (type "b", hash of "y", nonce 1, expiry 11, body with value 3) fails
verification, as does a malformed signature. -/
theorem c3_sign_verify_witness :
    verifySignature (signPayload 5 "a" (keccak256 "x") 0 10 bodyAB).1
      "a" (keccak256 "x") 0 10 bodyAB (addressOfKey 5) = true ∧
    verifySignature (signPayload 5 "a" (keccak256 "x") 0 10 bodyAB).1
      "b" (keccak256 "x") 0 10 bodyAB (addressOfKey 5) = false ∧
    verifySignature (signPayload 5 "a" (keccak256 "x") 0 10 bodyAB).1
      "a" (keccak256 "y") 0 10 bodyAB (addressOfKey 5) = false ∧
    verifySignature (signPayload 5 "a" (keccak256 "x") 0 10 bodyAB).1
      "a" (keccak256 "x") 1 10 bodyAB (addressOfKey 5) = false ∧
    verifySignature (signPayload 5 "a" (keccak256 "x") 0 10 bodyAB).1
      "a" (keccak256 "x") 0 11 bodyAB (addressOfKey 5) = false ∧
    verifySignature (signPayload 5 "a" (keccak256 "x") 0 10 bodyAB).1
      "a" (keccak256 "x") 0 10 [("a", Jval.num 3)] (addressOfKey 5) = false ∧
    verifySignature (Signature.malformed "0xzz") "b" (keccak256 "y") 1 11
      [("a", Jval.num 3)] (Address.mk 7 true) = false := by
  have h := c3_sign_verify_roundtrip 5 "a" "b" (keccak256 "x") (keccak256 "y")
    0 1 10 11 bodyAB [("a", Jval.num 3)] "0xzz" (Address.mk 7 true)
  exact ⟨h.1, h.2.1 (by decide), h.2.2.1 (by decide), h.2.2.2.1 (by decide),
    h.2.2.2.2.1 (by decide), h.2.2.2.2.2.1 (by decide), h.2.2.2.2.2.2⟩

/-- Claim C9: `signPayload` on a record that is already signed, or whose
expiry has passed, or where the provided key's address does not match the
record's signer address, always fails and leaves the store — in particular
the record's signature — unchanged. -/
theorem c9_sign_rejections (now payloadId key : Nat) (s : OracleState)
    (p : PayloadRec) (hfind : findRec payloadId s = some p)
    (hcond : p.signature ≠ none ∨ p.expiresAt < now ∨
      (getAddress (addressOfKey key)).toLowerCase ≠ p.signerAddress.toLowerCase) :
    isErr (OracleService.signPayload now payloadId key s).1 = true ∧
    (OracleService.signPayload now payloadId key s).2 = s := by
  simp only [OracleService.signPayload, hfind]
  by_cases h1 : p.signature.isSome = true
  · simp [h1, isErr]
  · have h1n : p.signature = none := by
      cases hs : p.signature with
      | none => rfl
      | some v => rw [hs] at h1; simp at h1
    by_cases h2 : p.expiresAt < now
    · simp [h1, h2, isErr]
    · have h3 : (getAddress (addressOfKey key)).toLowerCase ≠ p.signerAddress.toLowerCase := by
        rcases hcond with hc | hc | hc
        · exact absurd h1n hc
        · exact absurd hc h2
        · exact hc
      simp [h1, h2, isErr, PayloadSigningService.signPayload, h3]

/-- Concrete instantiation of `c9_sign_rejections`: re-signing the
already-signed record `recSigned` fails and leaves the store unchanged. -/
theorem c9_sign_rejections_witness :
    isErr (OracleService.signPayload 0 0 5 sSigned).1 = true ∧
    (OracleService.signPayload 0 0 5 sSigned).2 = sSigned :=
  c9_sign_rejections 0 0 5 sSigned recSigned (by decide)
    (Or.inl (by decide))

open SubmitterService in
/-- Claim C5 (amended): a monitoring failure that is an RPC error does not
leave the record `SUBMITTED` — `monitorTransaction` persists `FAILED` with a
"Transaction monitoring failed" message (retaining the rest of the row,
including its transaction reference); a ledger-reported revert likewise
persists `FAILED` with "Transaction reverted on-chain". -/
theorem c5_monitor_error_marks_failed (now payloadId : Nat) (m : String)
    (b : Nat) (s : OracleState) (p : PayloadRec)
    (hfind : findRec payloadId s = some p) :
    findRec payloadId (monitorTransaction now payloadId (MonitorOutcome.rpcError m) s) =
      some { p with status := PayloadStatus.failed,
                    errorMessage := some ("Transaction monitoring failed: " ++ m) } ∧
    findRec payloadId (monitorTransaction now payloadId (MonitorOutcome.mined false b) s) =
      some { p with status := PayloadStatus.failed,
                    errorMessage := some "Transaction reverted on-chain" } := by
  constructor
  · simp only [monitorTransaction, hfind]
    exact findRec_saveRec hfind rfl
  · simp only [monitorTransaction, hfind, Bool.false_eq_true, if_false]
    exact findRec_saveRec hfind rfl

open SubmitterService in
/-- Concrete instantiation of `c5_monitor_error_marks_failed` on the record
`recSubmitted`. -/
theorem c5_monitor_error_marks_failed_witness :
    findRec 0 (monitorTransaction 0 0 (MonitorOutcome.rpcError "timeout") sSubmitted) =
      some { recSubmitted with status := PayloadStatus.failed,
                               errorMessage := some ("Transaction monitoring failed: " ++ "timeout") } :=
  (c5_monitor_error_marks_failed 0 0 "timeout" 7 sSubmitted recSubmitted (by decide)).1

open SubmitterService in
/-- Claim C5, counterexample: a reachable `SUBMITTED` record with its
transaction reference is moved to `FAILED` by a monitoring pass that hits an
RPC error, contradicting "an RPC error never moves the record to FAILED". -/
theorem c5_monitor_counterexample :
    Reach stSubmitted ∧
    stSubmitted.payloads.map (fun p => (p.status, p.transactionHash)) =
      [(PayloadStatus.submitted, some "0xt1")] ∧
    (monitorTransaction 0 0 (MonitorOutcome.rpcError "connection error") stSubmitted).payloads.map
      (fun p => p.status) = [PayloadStatus.failed] := by
  refine ⟨?_, by decide, by decide⟩
  exact Reach.submit (Reach.sign (Reach.create Reach.init))

open SubmitterService in
/-- After any `submitPayload` call, every row either was already in the
store or does not have status `CONFIRMED`: submission never confirms. -/
theorem submitPayload_no_confirm (now payloadId : Nat) (out : SendOutcome)
    (s : OracleState) :
    ∀ q ∈ (submitPayload now payloadId out s).2.payloads,
      q ∈ s.payloads ∨ q.status ≠ PayloadStatus.confirmed := by
  intro q
  cases hfind : findRec payloadId s with
  | none =>
    intro hq
    left
    simpa [submitPayload, hfind] using hq
  | some p =>
    by_cases h1 : p.status ≠ PayloadStatus.pending
    · intro hq
      left
      simpa [submitPayload, hfind, h1] using hq
    · by_cases h2 : p.signature = none
      · intro hq
        left
        simpa [submitPayload, hfind, h1, h2] using hq
      · by_cases h3 : p.expiresAt < now
        · intro hq
          have hq2 : q ∈ updateRec
              { p with status := PayloadStatus.failed,
                       errorMessage := some "Payload expired before submission" }
              s.payloads := by
            simpa [submitPayload, hfind, h1, h2, h3, saveRec] using hq
          rcases mem_updateRec hq2 with hq3 | hq3
          · right
            rw [hq3]
            simp
          · exact Or.inl hq3.1
        · cases out with
          | sent tx =>
            intro hq
            have hq2 : q ∈ updateRec
                { p with transactionHash := some tx,
                         status := PayloadStatus.submitted,
                         submittedAt := some now,
                         submissionAttempts := p.submissionAttempts + 1 }
                s.payloads := by
              simpa [submitPayload, hfind, h1, h2, h3, saveRec] using hq
            rcases mem_updateRec hq2 with hq3 | hq3
            · right
              rw [hq3]
              simp
            · exact Or.inl hq3.1
          | sendError m =>
            intro hq
            have hq2 : q ∈ updateRec
                { p with submissionAttempts := p.submissionAttempts + 1,
                         errorMessage := some m,
                         status := if maxRetries ≤ p.submissionAttempts + 1
                                   then PayloadStatus.failed else p.status }
                s.payloads := by
              simpa [submitPayload, hfind, h1, h2, h3, saveRec] using hq
            rcases mem_updateRec hq2 with hq3 | hq3
            · right
              rw [hq3]
              have hp : p.status = PayloadStatus.pending := not_not.mp h1
              by_cases h4 : maxRetries ≤ p.submissionAttempts + 1
              · simp [h4]
              · simp [h4, hp]
            · exact Or.inl hq3.1

open SubmitterService in
/-- Claim C6 (amended): `submitPayload` rejects a `CONFIRMED` record without
mutating the store, and `retrySubmission` rejects any record whose attempts
reached `maxRetries` without mutating the store; but `retrySubmission` does
not check the status at all, so on a `CONFIRMED` record with attempts below
the maximum it resets the record and resubmits — afterwards the record's
status is no longer `CONFIRMED`.  `CONFIRMED` is therefore not terminal. -/
theorem c6_confirmed_not_terminal (now payloadId : Nat) (out : SendOutcome)
    (s : OracleState) (p : PayloadRec)
    (hfind : findRec payloadId s = some p) :
    (p.status = PayloadStatus.confirmed →
      isErr (submitPayload now payloadId out s).1 = true ∧
      (submitPayload now payloadId out s).2 = s) ∧
    (maxRetries ≤ p.submissionAttempts →
      isErr (retrySubmission now payloadId out s).1 = true ∧
      (retrySubmission now payloadId out s).2 = s) ∧
    (p.submissionAttempts < maxRetries →
      ∀ q ∈ (retrySubmission now payloadId out s).2.payloads,
        q.id = payloadId → q.status ≠ PayloadStatus.confirmed) := by
  have hpid : p.id = payloadId := by
    have hf := List.find?_some hfind
    simpa using hf
  refine ⟨?_, ?_, ?_⟩
  · intro hconf
    constructor
    · simp [submitPayload, hfind, hconf, isErr]
    · simp [submitPayload, hfind, hconf]
  · intro hmax
    constructor
    · simp [retrySubmission, hfind, hmax, isErr]
    · simp [retrySubmission, hfind, hmax]
  · intro hlt q hq hqid
    have hnle : ¬ maxRetries ≤ p.submissionAttempts := not_le.mpr hlt
    have hq2 : q ∈ (submitPayload now payloadId out
        (saveRec { p with status := PayloadStatus.pending, errorMessage := none } s)).2.payloads := by
      simpa [retrySubmission, hfind, hnle] using hq
    rcases submitPayload_no_confirm now payloadId out _ q hq2 with hmem | hstat
    · have hmem2 : q ∈ updateRec
          { p with status := PayloadStatus.pending, errorMessage := none }
          s.payloads := by
        simpa [saveRec] using hmem
      rcases mem_updateRec hmem2 with hq3 | hq3
      · rw [hq3]
        simp
      · exfalso
        have : (q.id == p.id) = true := by
          simp [hqid, hpid]
        simp only [this] at hq3
        exact Bool.true_eq_false.mp hq3.2
    · exact hstat

open SubmitterService in
/-- Concrete instantiation of `c6_confirmed_not_terminal`: `submitPayload`
rejects the confirmed record `recConfirmed` unchanged; `retrySubmission`
rejects the maxed-out record `recMaxed` unchanged; and retrying the
confirmed record (1 attempt < 3) leaves it no longer `CONFIRMED`. -/
theorem c6_confirmed_not_terminal_witness :
    (isErr (submitPayload 0 0 (SendOutcome.sent "0xt2") sConfirmed).1 = true ∧
      (submitPayload 0 0 (SendOutcome.sent "0xt2") sConfirmed).2 = sConfirmed) ∧
    (isErr (retrySubmission 0 0 (SendOutcome.sent "0xt2") sMaxed).1 = true ∧
      (retrySubmission 0 0 (SendOutcome.sent "0xt2") sMaxed).2 = sMaxed) ∧
    (retrySubmission 0 0 (SendOutcome.sent "0xt2") sConfirmed).2.payloads.all
      (fun q => !(q.id == 0) || !(decide (q.status = PayloadStatus.confirmed))) = true := by
  refine ⟨(c6_confirmed_not_terminal 0 0 (SendOutcome.sent "0xt2") sConfirmed
      recConfirmed (by decide)).1 (by decide),
    (c6_confirmed_not_terminal 0 0 (SendOutcome.sent "0xt2") sMaxed
      recMaxed (by decide)).2.1 (by decide), ?_⟩
  rw [List.all_eq_true]
  intro q hq
  by_cases hid : q.id = 0
  · have hs := (c6_confirmed_not_terminal 0 0 (SendOutcome.sent "0xt2") sConfirmed
      recConfirmed (by decide)).2.2 (by decide) q hq hid
    simp [hs]
  · simp [hid]

open SubmitterService in
/-- Claim C6, counterexample: the store `stConfirmed` is reachable and holds
a `CONFIRMED` record with one submission attempt; `retrySubmission` on it
changes the record's status to `SUBMITTED` (resetting to `PENDING` and
resubmitting), so an operation does change a `CONFIRMED` record's status. -/
theorem c6_confirmed_counterexample :
    Reach stConfirmed ∧
    stConfirmed.payloads.map (fun p => (p.status, p.submissionAttempts)) =
      [(PayloadStatus.confirmed, 1)] ∧
    (retrySubmission 0 0 (SendOutcome.sent "0xt2") stConfirmed).2.payloads.map
      (fun p => p.status) = [PayloadStatus.submitted] := by
  refine ⟨?_, by decide, by decide⟩
  exact Reach.monitor (Reach.submit (Reach.sign (Reach.create Reach.init)))
    (by decide)

theorem sigInv_create (now : Nat) (a : Address) (ty : String) (b : Body)
    (md : Option Body) (s : OracleState) (h : SigInv s) :
    SigInv (OracleService.createPayload now a ty b md s).2 := by
  intro q hq
  by_cases hdup : (s.payloads.any
      (fun r => r.payloadHash == PayloadSigningService.hashPayload b)) = true
  · have hq2 : q ∈ s.payloads := by
      simpa [OracleService.createPayload, hdup] using hq
    exact h q hq2
  · have hq2 : q ∈ s.payloads ∨ q.status = PayloadStatus.pending ∧
        q.signature = none ∧ q.transactionHash = none := by
      have hq3 := hq
      simp only [OracleService.createPayload, hdup, Bool.false_eq_true,
        if_false, List.mem_append, List.mem_singleton] at hq3
      rcases hq3 with h3 | h3
      · exact Or.inl h3
      · right
        rw [h3]
        exact ⟨rfl, rfl, rfl⟩
    rcases hq2 with h3 | ⟨hst, hsig, htx⟩
    · exact h q h3
    · constructor
      · intro hcon
        rcases hcon with hc | hc <;> rw [hst] at hc <;> exact absurd hc (by simp)
      · intro hcon
        exact absurd htx hcon

theorem sigInv_sign (now payloadId key : Nat) (s : OracleState) (h : SigInv s) :
    SigInv (OracleService.signPayload now payloadId key s).2 := by
  intro q hq
  cases hfind : findRec payloadId s with
  | none =>
    exact h q (by simpa [OracleService.signPayload, hfind] using hq)
  | some p =>
    by_cases h1 : p.signature.isSome = true
    · exact h q (by simpa [OracleService.signPayload, hfind, h1] using hq)
    · by_cases h2 : p.expiresAt < now
      · exact h q (by simpa [OracleService.signPayload, hfind, h1, h2] using hq)
      · by_cases h3 : (getAddress (addressOfKey key)).toLowerCase ≠ p.signerAddress.toLowerCase
        · exact h q (by simpa [OracleService.signPayload, hfind, h1, h2,
            PayloadSigningService.signPayload, h3] using hq)
        · set sg := (PayloadSigningService.signPayload key p.payloadType
            p.payloadHash p.nonce p.expiresAt p.payload).1 with hsg
          have hq3 : q ∈ updateRec { p with signature := some sg } s.payloads := by
            simpa [OracleService.signPayload, hfind, h1, h2,
              PayloadSigningService.signPayload, h3, saveRec] using hq
          rcases mem_updateRec hq3 with h4 | h4
          · rw [h4]
            exact ⟨fun _ => by simp, fun _ => by simp⟩
          · exact h q h4.1

open SubmitterService in
theorem sigInv_submit (now payloadId : Nat) (out : SendOutcome)
    (s : OracleState) (h : SigInv s) :
    SigInv (submitPayload now payloadId out s).2 := by
  intro q
  cases hfind : findRec payloadId s with
  | none =>
    intro hq
    exact h q (by simpa [submitPayload, hfind] using hq)
  | some p =>
    by_cases h1 : p.status ≠ PayloadStatus.pending
    · intro hq
      exact h q (by simpa [submitPayload, hfind, h1] using hq)
    · by_cases h2 : p.signature = none
      · intro hq
        exact h q (by simpa [submitPayload, hfind, h1, h2] using hq)
      · by_cases h3 : p.expiresAt < now
        · intro hq
          have hq2 : q ∈ updateRec
              { p with status := PayloadStatus.failed,
                       errorMessage := some "Payload expired before submission" }
              s.payloads := by
            simpa [submitPayload, hfind, h1, h2, h3, saveRec] using hq
          rcases mem_updateRec hq2 with h4 | h4
          · rw [h4]
            exact ⟨fun _ => h2, fun _ => h2⟩
          · exact h q h4.1
        · cases out with
          | sent tx =>
            intro hq
            have hq2 : q ∈ updateRec
                { p with transactionHash := some tx,
                         status := PayloadStatus.submitted,
                         submittedAt := some now,
                         submissionAttempts := p.submissionAttempts + 1 }
                s.payloads := by
              simpa [submitPayload, hfind, h1, h2, h3, saveRec] using hq
            rcases mem_updateRec hq2 with h4 | h4
            · rw [h4]
              exact ⟨fun _ => h2, fun _ => h2⟩
            · exact h q h4.1
          | sendError m =>
            intro hq
            have hq2 : q ∈ updateRec
                { p with submissionAttempts := p.submissionAttempts + 1,
                         errorMessage := some m,
                         status := if maxRetries ≤ p.submissionAttempts + 1
                                   then PayloadStatus.failed else p.status }
                s.payloads := by
              simpa [submitPayload, hfind, h1, h2, h3, saveRec] using hq
            rcases mem_updateRec hq2 with h4 | h4
            · rw [h4]
              exact ⟨fun _ => h2, fun _ => h2⟩
            · exact h q h4.1

open SubmitterService in
theorem sigInv_monitor (now payloadId : Nat) (out : MonitorOutcome)
    (s : OracleState) (h : SigInv s)
    (htx : ∀ p ∈ s.payloads, p.id = payloadId → p.transactionHash ≠ none) :
    SigInv (monitorTransaction now payloadId out s) := by
  intro q
  cases out with
  | mined success b =>
    cases hfind : findRec payloadId s with
    | none =>
      intro hq
      exact h q (by simpa [monitorTransaction, hfind] using hq)
    | some p =>
      have hp : p ∈ s.payloads := List.mem_of_find?_eq_some hfind
      have hpid : p.id = payloadId := by
        have hf := List.find?_some hfind
        simpa using hf
      have hsig : p.signature ≠ none := (h p hp).2 (htx p hp hpid)
      cases success with
      | true =>
        intro hq
        have hq2 : q ∈ updateRec
            { p with status := PayloadStatus.confirmed,
                     blockNumber := some b,
                     confirmedAt := some now,
                     errorMessage := none }
            s.payloads := by
          simpa [monitorTransaction, hfind, saveRec] using hq
        rcases mem_updateRec hq2 with h4 | h4
        · rw [h4]
          exact ⟨fun _ => hsig, fun _ => hsig⟩
        · exact h q h4.1
      | false =>
        intro hq
        have hq2 : q ∈ updateRec
            { p with status := PayloadStatus.failed,
                     errorMessage := some "Transaction reverted on-chain" }
            s.payloads := by
          simpa [monitorTransaction, hfind, saveRec] using hq
        rcases mem_updateRec hq2 with h4 | h4
        · rw [h4]
          exact ⟨fun _ => hsig, fun _ => hsig⟩
        · exact h q h4.1
  | rpcError m =>
    cases hfind : findRec payloadId s with
    | none =>
      intro hq
      exact h q (by simpa [monitorTransaction, hfind] using hq)
    | some p =>
      have hp : p ∈ s.payloads := List.mem_of_find?_eq_some hfind
      have hpid : p.id = payloadId := by
        have hf := List.find?_some hfind
        simpa using hf
      have hsig : p.signature ≠ none := (h p hp).2 (htx p hp hpid)
      intro hq
      have hq2 : q ∈ updateRec
          { p with status := PayloadStatus.failed,
                   errorMessage := some ("Transaction monitoring failed: " ++ m) }
          s.payloads := by
        simpa [monitorTransaction, hfind, saveRec] using hq
      rcases mem_updateRec hq2 with h4 | h4
      · rw [h4]
        exact ⟨fun _ => hsig, fun _ => hsig⟩
      · exact h q h4.1

open SubmitterService in
theorem sigInv_retry (now payloadId : Nat) (out : SendOutcome)
    (s : OracleState) (h : SigInv s) :
    SigInv (retrySubmission now payloadId out s).2 := by
  cases hfind : findRec payloadId s with
  | none =>
    intro q hq
    exact h q (by simpa [retrySubmission, hfind] using hq)
  | some p =>
    by_cases h1 : maxRetries ≤ p.submissionAttempts
    · intro q hq
      exact h q (by simpa [retrySubmission, hfind, h1] using hq)
    · have hp : p ∈ s.payloads := List.mem_of_find?_eq_some hfind
      have hs' : SigInv (saveRec
          { p with status := PayloadStatus.pending, errorMessage := none } s) := by
        intro q hq
        rcases mem_updateRec (show q ∈ updateRec _ s.payloads from hq) with h4 | h4
        · rw [h4]
          refine ⟨fun hc => ?_, fun hc => (h p hp).2 hc⟩
          rcases hc with hc | hc <;> simp at hc
        · exact h q h4.1
      have hsub := sigInv_submit now payloadId out _ hs'
      intro q hq
      apply hsub q
      simpa [retrySubmission, hfind, h1] using hq

theorem sigInv_cleanup (now : Nat) (s : OracleState) (h : SigInv s) :
    SigInv (OracleService.cleanupExpiredPayloads now s) := by
  intro q hq
  have hq2 : ∃ r ∈ s.payloads,
      (if decide (r.status = PayloadStatus.pending) && decide (r.expiresAt < now) then
        { r with status := PayloadStatus.failed,
                 errorMessage := some "Payload expired" }
      else r) = q := by
    simpa [OracleService.cleanupExpiredPayloads, List.mem_map] using hq
  obtain ⟨r, hr, he⟩ := hq2
  by_cases hc : (decide (r.status = PayloadStatus.pending) && decide (r.expiresAt < now)) = true
  · rw [if_pos hc] at he
    rw [← he]
    refine ⟨fun hcc => ?_, fun hcc => (h r hr).2 hcc⟩
    rcases hcc with hcc | hcc <;> simp at hcc
  · rw [if_neg hc] at he
    rw [← he]
    exact h r hr

theorem sigInv_reach {s : OracleState} (h : Reach s) : SigInv s := by
  induction h with
  | init =>
    intro q hq
    simp [initialState] at hq
  | create h ih => exact sigInv_create _ _ _ _ _ _ ih
  | sign h ih => exact sigInv_sign _ _ _ _ ih
  | submit h ih => exact sigInv_submit _ _ _ _ ih
  | monitor h htx ih => exact sigInv_monitor _ _ _ _ ih htx
  | retry h ih => exact sigInv_retry _ _ _ _ ih
  | cleanup h ih => exact sigInv_cleanup _ _ ih

/-- Claim C8 (amended): in every reachable store state, every `SUBMITTED` or
`CONFIRMED` record has a non-null signature.  The "only if" direction of the
original claim fails: a record is signed while still `PENDING` (this is the
state submission requires), so a `PENDING` record may carry a non-null
signature. -/
theorem c8_submitted_confirmed_signed (s : OracleState) (h : Reach s) :
    ∀ p ∈ s.payloads,
      (p.status = PayloadStatus.submitted ∨ p.status = PayloadStatus.confirmed) →
      p.signature ≠ none :=
  fun p hp hst => (sigInv_reach h p hp).1 hst

/-- Concrete instantiation of `c8_submitted_confirmed_signed` on the
reachable state `stSubmitted`. -/
theorem c8_submitted_confirmed_signed_witness :
    stSubmitted.payloads.all (fun p =>
      !(decide (p.status = PayloadStatus.submitted) ||
        decide (p.status = PayloadStatus.confirmed)) || p.signature.isSome) = true := by
  rw [List.all_eq_true]
  intro p hp
  by_cases hst : p.status = PayloadStatus.submitted ∨ p.status = PayloadStatus.confirmed
  · have hsig := c8_submitted_confirmed_signed stSubmitted
      (Reach.submit (Reach.sign (Reach.create Reach.init))) p hp hst
    simp [Option.isSome_iff_ne_none, hsig]
  · rw [not_or] at hst
    simp [hst.1, hst.2]

/-- Claim C8, counterexample: the reachable state `stSigned` holds a record
whose status is `PENDING` and whose signature is non-null (signed, awaiting
submission), contradicting "no PENDING record has a non-null signature". -/
theorem c8_pending_signed_counterexample :
    Reach stSigned ∧
    stSigned.payloads.map (fun p => (p.status, p.signature.isSome)) =
      [(PayloadStatus.pending, true)] :=
  ⟨Reach.sign (Reach.create Reach.init), by decide⟩
